import Mathlib

/-!
Shallow embedding of `python/mlc_chat/compiler/gen_mlc_chat_config.py`.

The module builds an `mlc-chat-config.json` document: it seeds an
`MLCChatConfig` record, fills still-unset (Python-`None`) fields from the
model configuration, from an optional `generation_config.json`, copies the
tokenizer artifacts of a fixed catalog, optionally converts
`tokenizer.model` to `tokenizer.json` via the optional `transformers`
capability, applies system defaults, deletes `max_window_size` when
`sliding_window` is set, deletes every `None`-valued field, and dumps the
result.  Records are modelled as association lists in dataclass field
order; the Python `None` sentinel is the value `Value.null`.
-/

namespace MLC

/-- Dynamic values held by configuration fields; `null` is Python `None`,
the unset sentinel.  Float literals of the source are represented as
rationals, as the code never computes with them. -/
inductive Value where
  | null
  | str (s : String)
  | int (n : Int)
  | rat (q : Rat)
  | bool (b : Bool)
  | list (elts : List Value)
  | obj (fields : List (String × Value))

/-- True exactly on the unset sentinel (Python `x is None`). -/
def Value.isNull : Value → Bool
  | .null => true
  | _ => false

/-- Schema version constant `VERSION` of the source. -/
def VERSION : String := "0.1.0"

/-- A record or dict: keys with dynamic values, in insertion order. -/
abbrev Record := List (String × Value)

/-- Python `d[k]` made total: the value at the first occurrence of `k`. -/
def getKey : Record → String → Option Value
  | [], _ => none
  | kv :: rest, k => if kv.1 == k then some kv.2 else getKey rest k

/-- The key sequence of a record. -/
def keysOf (d : Record) : List String := d.map Prod.fst

/-- Attribute access on the model-config `__dict__`
(`model_config.vocab_size`, `model_config.context_window_size`). -/
def attrOf (attrs : Record) (k : String) : Value :=
  (getKey attrs k).getD .null

/-- One `setattr(cfg, key, value)` guarded by
`hasattr(cfg, key) and getattr(cfg, key) is None`: fields with other
names, and fields already set, are untouched. -/
def setIfUnset : Record → String → Value → Record
  | [], _, _ => []
  | kv :: rest, k, v =>
    (if kv.1 == k && kv.2.isNull then (kv.1, v) else kv) :: setIfUnset rest k v

/-- The `for key, value in layer.items(): if ... is None: setattr ...`
loops of Step 1, Step 2 and Step 4. -/
def applyLayer (cfg : Record) (layer : Record) : Record :=
  layer.foldl (fun c kv => setIfUnset c kv.1 kv.2) cfg

/-- Unconditional `setattr` on a single field (the in-place population of
`tokenizer_files` by Step 3, observed at its end). -/
def setField : Record → String → Value → Record
  | [], _, _ => []
  | kv :: rest, k, v =>
    (if kv.1 == k then (kv.1, v) else kv) :: setField rest k v

/-- The `MLCChatConfig` dataclass constructed in `gen_config`, as
`dataclasses.asdict` will list it: fields in declaration order, the
keyword arguments of the constructor call filled in, every other field at
its `None` default, `tokenizer_files` at its empty-list default. -/
def initConfig (model_name quantization_name : String)
    (model_config_json : Record) (vocab_size max_window_size : Value)
    (conv_template : String) : Record :=
  [ ("version", .str VERSION),
    ("model_type", .str model_name),
    ("quantization", .str quantization_name),
    ("model_config", .obj model_config_json),
    ("vocab_size", vocab_size),
    ("max_window_size", max_window_size),
    ("temperature", .null),
    ("repetition_penalty", .null),
    ("top_p", .null),
    ("mean_gen_len", .null),
    ("max_gen_len", .null),
    ("shift_fill_factor", .null),
    ("sliding_window", .null),
    ("prefill_chunk_size", .null),
    ("conv_template", .str conv_template),
    ("pad_token_id", .null),
    ("bos_token_id", .null),
    ("eos_token_id", .null),
    ("tokenizer_files", .list []) ]

/-- The field names of `MLCChatConfig`, in declaration order. -/
def MLC_FIELDS : List String :=
  [ "version", "model_type", "quantization", "model_config", "vocab_size",
    "max_window_size", "temperature", "repetition_penalty", "top_p",
    "mean_gen_len", "max_gen_len", "shift_fill_factor", "sliding_window",
    "prefill_chunk_size", "conv_template", "pad_token_id", "bos_token_id",
    "eos_token_id", "tokenizer_files" ]

/-- The `DEFAULT_CONFIGS` table of the source. -/
def DEFAULT_CONFIGS : Record :=
  [ ("pad_token_id", .int 0),
    ("bos_token_id", .int 1),
    ("eos_token_id", .int 2),
    ("temperature", .rat 0.7),
    ("repetition_penalty", .rat 1.0),
    ("top_p", .rat 0.95),
    ("mean_gen_len", .int 128),
    ("max_gen_len", .int 512),
    ("shift_fill_factor", .rat 0.3) ]

/-- The `TOKENIZER_FILES` catalog of the source, in its fixed order. -/
def TOKENIZER_FILES : List String :=
  [ "tokenizer.model", "tokenizer.json", "vocab.json", "merges.txt",
    "added_tokens.json", "tokenizer_config.json" ]

/-- Step 3.1: walk the catalog; for each file present in the source
directory, append its name to `tokenizer_files` and then copy it.  The
result is `(tokenizer_files appended, files successfully copied, first
file whose copy raised, if any)`; a raised copy aborts the walk with the
name already appended, as in the source, where the `append` statement
precedes `shutil.copy`. -/
def copyTokenizerFiles (present copyOk : String → Bool) :
    List String → List String × List String × Option String
  | [] => ([], [], none)
  | f :: rest =>
    if present f then
      if copyOk f then
        let r := copyTokenizerFiles present copyOk rest
        (f :: r.1, f :: r.2.1, r.2.2)
      else ([f], [], some f)
    else copyTokenizerFiles present copyOk rest

/-- Outcome of the optional `transformers` conversion: success,
`ImportError` (capability not installed), or any other exception. -/
inductive ConvOutcome where
  | ok
  | importError
  | convError

/-- Step 3.2: when `tokenizer.model` exists but `tokenizer.json` does
not, attempt the conversion; both failure modes are caught and logged as
warnings.  The result is `(names appended to tokenizer_files, files
written to the output directory, warnings logged)`. -/
def convertStep (present : String → Bool) (conv : ConvOutcome) :
    List String × List String × List String :=
  if present "tokenizer.model" && !(present "tokenizer.json") then
    match conv with
    | .ok => (["tokenizer.json"], ["tokenizer.json"], [])
    | .importError => ([], [], ["unable to import transformers, skipping"])
    | .convError => ([], [], ["skipping conversion due to an error"])
  else ([], [], [])

/-- The guard `mlc_chat_config_dict["sliding_window"] is not None` of the
cleanup step (the key is always present on records produced by
`dataclasses.asdict`; an absent key reads as unset). -/
def slidingWindowSet (d : Record) : Bool :=
  match getKey d "sliding_window" with
  | some v => !v.isNull
  | none => false

/-- The cleanup before dumping: delete `max_window_size` whenever
`sliding_window` is not `None`, then delete every `None`-valued field. -/
def cleanup (d : Record) : Record :=
  (if slidingWindowSet d
    then d.filter (fun kv => kv.1 != "max_window_size")
    else d).filter (fun kv => !kv.2.isNull)

/-- Inputs of `gen_config`, with the external collaborators abstracted:
`schema` is the outcome of `model.config.from_dict` followed by
`ModelConfigOverride.apply` (the attribute dict of the resulting model
config, or the raised error); `present` is file existence in the source
directory; `copyOk` tells whether `shutil.copy` succeeds; `conv` is the
outcome of the optional `transformers` conversion. -/
structure GenArgs where
  schema : Except String Record
  model_name : String
  quantization_name : String
  conv_template : String
  model_config_json : Record
  generation_config : Option Record
  present : String → Bool
  copyOk : String → Bool
  conv : ConvOutcome

/-- Result of a completed `gen_config` run: the dict dumped to
`mlc-chat-config.json`, the files fully written into the output
directory, and the warnings logged. -/
structure GenOut where
  doc : Record
  written : List String
  warnings : List String

/-- The record after the seed construction, Step 1 (the model-config
attribute layer) and Step 2 (the optional `generation_config.json`
layer): the seed is the `MLCChatConfig` constructor call, whose
`vocab_size` and `max_window_size` keyword arguments read the
`vocab_size` and `context_window_size` attributes of the model config. -/
def mergedConfig (attrs : Record) (model_name quantization_name
    conv_template : String) (model_config_json : Record)
    (generation_config : Option Record) : Record :=
  let cfg0 := initConfig model_name quantization_name model_config_json
    (attrOf attrs "vocab_size") (attrOf attrs "context_window_size")
    conv_template
  let cfg1 := applyLayer cfg0 attrs
  match generation_config with
  | some g => applyLayer cfg1 g
  | none => cfg1

/-- The `gen_config` pipeline.  On an error the result carries the files
already written before the raise; the configuration document itself is
only written at the very end of a successful run. -/
def gen_config (a : GenArgs) : Except (String × List String) GenOut :=
  match a.schema with
  | .error e => .error (e, [])
  | .ok attrs =>
    let cfg2 := mergedConfig attrs a.model_name a.quantization_name
      a.conv_template a.model_config_json a.generation_config
    let r := copyTokenizerFiles a.present a.copyOk TOKENIZER_FILES
    match r.2.2 with
    | some f => .error ("copy failed: " ++ f, r.2.1)
    | none =>
      let c := convertStep a.present a.conv
      let cfg3 := setField cfg2 "tokenizer_files"
        (.list ((r.1 ++ c.1).map .str))
      let cfg4 := applyLayer cfg3 DEFAULT_CONFIGS
      .ok { doc := cleanup cfg4,
            written := r.2.1 ++ c.2.1 ++ ["mlc-chat-config.json"],
            warnings := c.2.2 }

/-- Events of the Step 3.1 loop, in execution order: the in-place
`tokenizer_files.append(filename)` statement and the completion of the
`shutil.copy` call that follows it. -/
inductive CopyEv where
  | append (f : String)
  | copied (f : String)

/-- Execution trace of the Step 3.1 loop: for each catalog file present
in the source directory the loop body first appends the name to
`tokenizer_files` and then performs the copy; a copy that raises ends the
run with the name already appended. -/
def step3Events (present copyOk : String → Bool) : List String → List CopyEv
  | [] => []
  | f :: rest =>
    if present f then
      if copyOk f then
        .append f :: .copied f :: step3Events present copyOk rest
      else [.append f]
    else step3Events present copyOk rest

/-- Helper walking a trace while remembering which files have been
copied so far. -/
def appendedAfterCopyGo (done : List String) : List CopyEv → Bool
  | [] => true
  | .copied f :: rest => appendedAfterCopyGo (f :: done) rest
  | .append f :: rest => done.contains f && appendedAfterCopyGo done rest

/-- The ordering property asserted by the specification for artifacts:
every append to the artifact list happens only after the copy of that
same file has fully succeeded. -/
def appendedOnlyAfterCopySucceeded (tr : List CopyEv) : Bool :=
  appendedAfterCopyGo [] tr

/-- First value a layer would write into a still-unset field named `k`:
the first `k`-keyed item of the layer carrying a non-`None` value. -/
def firstSet (layer : Record) (k : String) : Option Value :=
  ((layer.filter (fun kv => kv.1 == k)).find? (fun kv => !kv.2.isNull)).map
    (fun kv => kv.2)

/-- Drop a `None` sentinel from an optional lookup result. -/
def denull (o : Option Value) : Option Value :=
  o.bind (fun v => if v.isNull then none else some v)

/-- Extract the payload of a completed run (used to state concrete
instances; an error yields an empty placeholder). -/
def getOk : Except (String × List String) GenOut → GenOut
  | .ok o => o
  | .error _ => ⟨[], [], []⟩

/-- Modelled from the spec: the model schema layer
(`model.config.from_dict` composed with `ModelConfigOverride.apply`,
which live outside this module) fails when it cannot derive the
vocabulary size or the window size and no override supplies them;
otherwise it yields the attribute record of the resulting model
configuration. -/
def resolveModelSchema (canDeriveVocab canDeriveWindow : Bool)
    (attrs : Record) : Except String Record :=
  if canDeriveVocab && canDeriveWindow then .ok attrs
  else .error "required schema fields missing"

def c1Args : GenArgs :=
  { schema := .ok [("vocab_size", Value.int 32000),
      ("context_window_size", Value.int 2048),
      ("sliding_window", Value.int 4096)]
    model_name := "mistral"
    quantization_name := "q4f16_1"
    conv_template := "mistral_default"
    model_config_json := [("vocab_size", Value.int 32000)]
    generation_config := none
    present := fun _ => false
    copyOk := fun _ => true
    conv := ConvOutcome.ok }

def c1Out : GenOut := getOk (gen_config c1Args)

def c3Cfg : Record :=
  applyLayer (initConfig "llama" "q4f16_1" [] (Value.int 32000)
    (Value.int 2048) "llama-2") [("temperature", Value.rat 0.5)]

def c2Args : GenArgs :=
  { schema := .ok [("vocab_size", Value.int 1000),
      ("context_window_size", Value.int 512)]
    model_name := "llama"
    quantization_name := "q4f32_1"
    conv_template := "llama_default"
    model_config_json := []
    generation_config := none
    present := fun _ => false
    copyOk := fun _ => true
    conv := ConvOutcome.ok }

def c2Out : GenOut := getOk (gen_config c2Args)

def c4Args : GenArgs :=
  { schema := .ok [("vocab_size", Value.int 1000),
      ("context_window_size", Value.int 512)]
    model_name := "llama"
    quantization_name := "q4f16_1"
    conv_template := "llama-2"
    model_config_json := []
    generation_config := none
    present := fun f => f == "tokenizer.json"
    copyOk := fun _ => false
    conv := ConvOutcome.ok }

def c5Args : GenArgs :=
  { schema := .ok [("vocab_size", Value.int 32000),
      ("context_window_size", Value.int 2048)]
    model_name := "llama"
    quantization_name := "q4f16_1"
    conv_template := "llama-2"
    model_config_json := []
    generation_config := none
    present := fun f => f == "tokenizer.model"
    copyOk := fun _ => true
    conv := ConvOutcome.importError }

def c5Out : GenOut := getOk (gen_config c5Args)

def c6Args : GenArgs :=
  { schema := .ok [("vocab_size", Value.int 50257),
      ("context_window_size", Value.int 1024)]
    model_name := "gpt2"
    quantization_name := "q0f32"
    conv_template := "gpt2"
    model_config_json := []
    generation_config := none
    present := fun f => f == "tokenizer.json" || f == "vocab.json"
    copyOk := fun _ => true
    conv := ConvOutcome.ok }

def c6Out : GenOut := getOk (gen_config c6Args)

def c7Args : GenArgs :=
  { schema := .ok [("vocab_size", Value.int 32000),
      ("context_window_size", Value.int 2048),
      ("temperature", Value.null)]
    model_name := "llama"
    quantization_name := "q4f16_1"
    conv_template := "llama-2"
    model_config_json := []
    generation_config := none
    present := fun _ => false
    copyOk := fun _ => true
    conv := ConvOutcome.ok }

def c7Out : GenOut := getOk (gen_config c7Args)

def c10Args : GenArgs :=
  { schema := .ok [("vocab_size", Value.int 50257),
      ("context_window_size", Value.int 1024)]
    model_name := "gpt2"
    quantization_name := "q0f16"
    conv_template := "gpt2"
    model_config_json := [("vocab_size", Value.int 50257)]
    generation_config := none
    present := fun _ => false
    copyOk := fun _ => true
    conv := ConvOutcome.ok }

def c10Out : GenOut := getOk (gen_config c10Args)


section Lemmas

theorem keysOf_setIfUnset (d : Record) (k : String) (v : Value) :
    keysOf (setIfUnset d k v) = keysOf d := by
  induction d with
  | nil => rfl
  | cons kv rest ih =>
    simp only [setIfUnset, keysOf, List.map_cons] at *
    rw [ih]
    by_cases h : kv.1 == k && kv.2.isNull <;> simp [h]

theorem keysOf_applyLayer (d : Record) (l : Record) :
    keysOf (applyLayer d l) = keysOf d := by
  induction l generalizing d with
  | nil => rfl
  | cons kv rest ih =>
    simp only [applyLayer, List.foldl_cons] at *
    rw [ih, keysOf_setIfUnset]

theorem keysOf_setField (d : Record) (k : String) (v : Value) :
    keysOf (setField d k v) = keysOf d := by
  induction d with
  | nil => rfl
  | cons kv rest ih =>
    simp only [setField, keysOf, List.map_cons] at *
    rw [ih]
    by_cases h : kv.1 == k <;> simp [h]

theorem getKey_eq_none_of_not_mem {d : Record} {k : String}
    (h : k ∉ keysOf d) : getKey d k = none := by
  induction d with
  | nil => rfl
  | cons kv rest ih =>
    simp only [keysOf, List.map_cons, List.mem_cons, not_or] at h
    simp only [getKey]
    rw [if_neg (by simp [Ne.symm h.1]), ih h.2]

theorem keysOf_filter_subset (d : Record) (p : String × Value → Bool) :
    keysOf (d.filter p) ⊆ keysOf d := by
  intro x hx
  simp only [keysOf, List.mem_map] at hx ⊢
  obtain ⟨kv, hkv, rfl⟩ := hx
  exact ⟨kv, (List.mem_filter.mp hkv).1, rfl⟩

theorem nodup_keysOf_filter {d : Record} (p : String × Value → Bool)
    (h : (keysOf d).Nodup) : (keysOf (d.filter p)).Nodup :=
  ((List.filter_sublist d).map Prod.fst).nodup h

theorem getKey_setIfUnset_of_ne {k k' : String} (d : Record) (v : Value)
    (h : k ≠ k') : getKey (setIfUnset d k' v) k = getKey d k := by
  induction d with
  | nil => rfl
  | cons kv rest ih =>
    by_cases hc : kv.1 == k' && kv.2.isNull
    · have hk : (kv.1 == k) = false := by
        simp only [Bool.and_eq_true, beq_iff_eq] at hc
        simp [hc.1, Ne.symm h]
      simp [setIfUnset, getKey, hc, hk, ih]
    · simp only [Bool.not_eq_true] at hc
      by_cases hk : kv.1 == k <;>
        simp [setIfUnset, getKey, hc, hk, ih]

theorem getKey_setIfUnset_of_some {d : Record} {k : String} {v : Value}
    (k' : String) (w : Value) (h : getKey d k = some v)
    (hv : v.isNull = false) :
    getKey (setIfUnset d k' w) k = some v := by
  induction d with
  | nil => simp [getKey] at h
  | cons kv rest ih =>
    by_cases hk : kv.1 == k
    · simp only [getKey, hk, if_pos, Option.some.injEq] at h
      have hc : (kv.1 == k' && kv.2.isNull) = false := by simp [h, hv]
      simp only [setIfUnset, hc, Bool.false_eq_true, if_false]
      simp [getKey, hk, h]
    · simp only [Bool.not_eq_true] at hk
      simp only [getKey, hk, Bool.false_eq_true, if_false] at h
      by_cases hc : kv.1 == k' && kv.2.isNull <;>
        simp [setIfUnset, getKey, hc, hk, ih h]

theorem getKey_setIfUnset_self_null {d : Record} {k : String}
    (v : Value) (h : getKey d k = some Value.null) :
    getKey (setIfUnset d k v) k = some v := by
  induction d with
  | nil => simp [getKey] at h
  | cons kv rest ih =>
    by_cases hk : kv.1 == k
    · simp only [getKey, hk, if_pos, Option.some.injEq] at h
      have hn : kv.2.isNull = true := by rw [h]; rfl
      simp [setIfUnset, getKey, hk, hn]
    · simp only [Bool.not_eq_true] at hk
      simp only [getKey, hk, Bool.false_eq_true, if_false] at h
      by_cases hc : kv.1 == k && kv.2.isNull <;>
        simp [setIfUnset, getKey, hc, hk, ih h]

theorem applyLayer_cons (d : Record) (kv : String × Value)
    (rest : Record) :
    applyLayer d (kv :: rest) = applyLayer (setIfUnset d kv.1 kv.2) rest :=
  rfl

theorem getKey_applyLayer_of_some {d : Record} {k : String} {v : Value}
    (l : Record) (h : getKey d k = some v) (hv : v.isNull = false) :
    getKey (applyLayer d l) k = some v := by
  induction l generalizing d with
  | nil => exact h
  | cons kv rest ih =>
    rw [applyLayer_cons]
    exact ih (getKey_setIfUnset_of_some kv.1 kv.2 h hv)

theorem getKey_applyLayer_of_null {d : Record} {k : String} (l : Record)
    (h : getKey d k = some Value.null) :
    getKey (applyLayer d l) k = some ((firstSet l k).getD Value.null) := by
  induction l generalizing d with
  | nil => simpa [firstSet] using h
  | cons kv rest ih =>
    rw [applyLayer_cons]
    by_cases hk : kv.1 == k
    · by_cases hn : kv.2.isNull
      · have hv : kv.2 = Value.null := by
          cases h2 : kv.2 <;> simp_all [Value.isNull]
        have hk2 : kv.1 = k := by simpa using hk
        have h2 : getKey (setIfUnset d kv.1 kv.2) k = some Value.null := by
          rw [hk2, hv]
          exact getKey_setIfUnset_self_null _ h
        rw [ih h2]
        simp [firstSet, List.filter_cons, hk, hn]
      · simp only [Bool.not_eq_true] at hn
        have hk2 : kv.1 = k := by simpa using hk
        have h2 : getKey (setIfUnset d kv.1 kv.2) k = some kv.2 := by
          rw [hk2]; exact getKey_setIfUnset_self_null _ h
        rw [getKey_applyLayer_of_some rest h2 hn]
        simp [firstSet, List.filter_cons, hk, List.find?_cons, hn]
    · simp only [Bool.not_eq_true] at hk
      have hne : k ≠ kv.1 := fun he => by simp [he] at hk
      have h2 : getKey (setIfUnset d kv.1 kv.2) k = some Value.null := by
        rw [getKey_setIfUnset_of_ne _ _ hne]; exact h
      rw [ih h2]
      simp [firstSet, List.filter_cons, hk]

theorem getKey_setField_of_ne {k k' : String} (d : Record) (v : Value)
    (h : k ≠ k') : getKey (setField d k' v) k = getKey d k := by
  induction d with
  | nil => rfl
  | cons kv rest ih =>
    by_cases hc : kv.1 == k'
    · have hk : (kv.1 == k) = false := by
        simp only [beq_iff_eq] at hc
        simp [hc, Ne.symm h]
      simp [setField, getKey, hc, hk, ih]
    · simp only [Bool.not_eq_true] at hc
      by_cases hk : kv.1 == k <;> simp [setField, getKey, hc, hk, ih]

theorem getKey_setField_self {d : Record} {k : String} (v : Value)
    (h : k ∈ keysOf d) : getKey (setField d k v) k = some v := by
  induction d with
  | nil => simp [keysOf] at h
  | cons kv rest ih =>
    by_cases hc : kv.1 == k
    · simp [setField, getKey, hc]
    · simp only [Bool.not_eq_true] at hc
      have h2 : k ∈ keysOf rest := by
        simp only [keysOf, List.map_cons, List.mem_cons] at h
        rcases h with h | h
        · exact absurd (beq_iff_eq.mpr h.symm) (by simp [hc])
        · exact h
      simp [setField, getKey, hc, ih h2]

theorem firstSet_eq_none {l : Record} {k : String}
    (h : ∀ kv ∈ l, kv.1 = k → kv.2 = Value.null) : firstSet l k = none := by
  have hfind : (l.filter (fun kv => kv.1 == k)).find?
      (fun kv => !kv.2.isNull) = none := by
    rw [List.find?_eq_none]
    intro kv hkv
    have hm := List.mem_filter.mp hkv
    have h2 := h kv hm.1 (by simpa using hm.2)
    simp [h2, Value.isNull]
  simp [firstSet, hfind]

theorem getKey_filter_nonnull {d : Record} (k : String)
    (hnd : (keysOf d).Nodup) :
    getKey (d.filter (fun kv => !kv.2.isNull)) k = denull (getKey d k) := by
  induction d with
  | nil => rfl
  | cons kv rest ih =>
    simp only [keysOf, List.map_cons, List.nodup_cons] at hnd
    by_cases hn : kv.2.isNull
    · by_cases hk : kv.1 == k
      · have hk2 : kv.1 = k := by simpa using hk
        have hnone : getKey (rest.filter (fun kv => !kv.2.isNull)) k = none := by
          apply getKey_eq_none_of_not_mem
          intro hmem
          exact hnd.1 (hk2 ▸ keysOf_filter_subset rest _ hmem)
        simp [List.filter_cons, hn, getKey, hk, denull, hnone, ih hnd.2]
      · simp [List.filter_cons, hn, getKey, hk, ih hnd.2]
    · simp only [Bool.not_eq_true] at hn
      by_cases hk : kv.1 == k <;>
        simp [List.filter_cons, hn, getKey, hk, denull, ih hnd.2]

theorem getKey_filter_ne_mw {d : Record} {k : String}
    (h : k ≠ "max_window_size") :
    getKey (d.filter (fun kv => kv.1 != "max_window_size")) k = getKey d k := by
  induction d with
  | nil => rfl
  | cons kv rest ih =>
    by_cases hm : kv.1 = "max_window_size"
    · have hk : (kv.1 == k) = false := by simp [hm, Ne.symm h]
      rw [List.filter_cons, if_neg (by simp [hm])]
      simp [getKey, hk, ih]
    · rw [List.filter_cons, if_pos (by simp [hm])]
      by_cases hk : kv.1 == k <;> simp [getKey, hk, ih]

theorem getKey_cleanup {d : Record} (k : String)
    (hnd : (keysOf d).Nodup) (hk : k ≠ "max_window_size") :
    getKey (cleanup d) k = denull (getKey d k) := by
  unfold cleanup
  by_cases hs : slidingWindowSet d
  · rw [if_pos hs, getKey_filter_nonnull k (nodup_keysOf_filter _ hnd),
      getKey_filter_ne_mw hk]
  · rw [if_neg hs, getKey_filter_nonnull k hnd]

theorem all_cleanup_nonnull (d : Record) :
    (cleanup d).all (fun kv => !kv.2.isNull) = true := by
  unfold cleanup
  rw [List.all_eq_true]
  intro kv hkv
  exact (List.mem_filter.mp hkv).2

theorem cleanup_mw_absent {d : Record} {v : Value}
    (hnd : (keysOf d).Nodup)
    (h : getKey (cleanup d) "sliding_window" = some v) :
    "max_window_size" ∉ keysOf (cleanup d) := by
  by_cases hs : slidingWindowSet d
  · intro hmem
    unfold cleanup at hmem
    rw [if_pos hs] at hmem
    have hmem2 := keysOf_filter_subset _ _ hmem
    simp only [keysOf, List.mem_map] at hmem2
    obtain ⟨kv, hkv, hfst⟩ := hmem2
    have := (List.mem_filter.mp hkv).2
    simp [hfst] at this
  · exfalso
    have hget : getKey (cleanup d) "sliding_window"
        = denull (getKey d "sliding_window") :=
      getKey_cleanup _ hnd (by decide)
    unfold slidingWindowSet at hs
    rcases hw : getKey d "sliding_window" with _ | w
    · rw [hget, hw] at h
      simp [denull] at h
    · rw [hw] at hs
      rw [Bool.not_eq_true] at hs
      have hs3 : (!w.isNull) = false := hs
      have hs2 : w.isNull = true := by
        cases hb : w.isNull
        · rw [hb] at hs3; simp at hs3
        · rfl
      rw [hget, hw] at h
      simp [denull, hs2] at h

theorem cleanup_idem {d : Record} (hnd : (keysOf d).Nodup) :
    cleanup (cleanup d) = cleanup d := by
  have hno : ∀ kv ∈ cleanup d, (!kv.2.isNull) = true := by
    intro kv hkv
    exact (List.mem_filter.mp hkv).2
  set c := cleanup d with hc
  by_cases hs : slidingWindowSet c
  · have hv : ∃ v, getKey c "sliding_window" = some v := by
      unfold slidingWindowSet at hs
      rcases hw : getKey c "sliding_window" with _ | w
      · rw [hw] at hs; simp at hs
      · exact ⟨w, rfl⟩
    obtain ⟨v, hv⟩ := hv
    have hmw := cleanup_mw_absent hnd (hc ▸ hv)
    rw [← hc] at hmw
    have hfil : c.filter (fun kv => kv.1 != "max_window_size") = c := by
      rw [List.filter_eq_self]
      intro kv hkv
      simp only [bne_iff_ne, ne_eq]
      intro he
      exact hmw (he ▸ List.mem_map_of_mem Prod.fst hkv)
    unfold cleanup
    rw [if_pos hs, hfil, List.filter_eq_self.mpr hno]
  · unfold cleanup
    rw [if_neg hs, List.filter_eq_self.mpr hno]

theorem copyTokenizerFiles_sub (p ok : String → Bool) (fs : List String) :
    (copyTokenizerFiles p ok fs).2.1 ⊆ fs := by
  induction fs with
  | nil => simp [copyTokenizerFiles]
  | cons f rest ih =>
    by_cases hp : p f
    · by_cases ho : ok f
      · simp only [copyTokenizerFiles, hp, ho, if_pos]
        exact fun x hx => by
          rcases hx with _ | hx
          · exact List.mem_cons_self f rest
          · exact List.mem_cons_of_mem f (ih (by assumption))
      · simp only [Bool.not_eq_true] at ho
        simp [copyTokenizerFiles, hp, ho]
    · simp only [Bool.not_eq_true] at hp
      simp only [copyTokenizerFiles, hp, Bool.false_eq_true, if_false]
      exact fun x hx => List.mem_cons_of_mem f (ih hx)

theorem copyTokenizerFiles_none_eq_filter {p ok : String → Bool}
    {fs : List String}
    (h : (copyTokenizerFiles p ok fs).2.2 = none) :
    (copyTokenizerFiles p ok fs).1 = fs.filter p ∧
    (copyTokenizerFiles p ok fs).2.1 = fs.filter p := by
  induction fs with
  | nil => simp [copyTokenizerFiles]
  | cons f rest ih =>
    by_cases hp : p f
    · by_cases ho : ok f
      · simp only [copyTokenizerFiles, hp, ho, if_pos] at h ⊢
        obtain ⟨h1, h2⟩ := ih h
        simp [List.filter_cons, hp, h1, h2]
      · simp only [Bool.not_eq_true] at ho
        simp [copyTokenizerFiles, hp, ho] at h
    · simp only [Bool.not_eq_true] at hp
      simp only [copyTokenizerFiles, hp, Bool.false_eq_true, if_false] at h ⊢
      obtain ⟨h1, h2⟩ := ih h
      simp [List.filter_cons, hp, h1, h2]

theorem copyTokenizerFiles_all_ok (p : String → Bool) (fs : List String)
    (ok : String → Bool) (hok : ∀ f, ok f = true) :
    copyTokenizerFiles p ok fs = (fs.filter p, fs.filter p, none) := by
  induction fs with
  | nil => simp [copyTokenizerFiles]
  | cons f rest ih =>
    by_cases hp : p f
    · simp [copyTokenizerFiles, hp, hok f, ih, List.filter_cons]
    · simp only [Bool.not_eq_true] at hp
      simp [copyTokenizerFiles, hp, ih, List.filter_cons]

theorem keysOf_initConfig (mn qn ct : String) (mcj : Record)
    (vs mw : Value) : keysOf (initConfig mn qn mcj vs mw ct) = MLC_FIELDS :=
  rfl

theorem keysOf_mergedConfig (attrs : Record) (mn qn ct : String)
    (mcj : Record) (gc : Option Record) :
    keysOf (mergedConfig attrs mn qn ct mcj gc) = MLC_FIELDS := by
  unfold mergedConfig
  cases gc <;> simp [keysOf_applyLayer, keysOf_initConfig]

theorem nodup_MLC_FIELDS : MLC_FIELDS.Nodup := by decide

theorem getKey_init_default_null (mn qn ct : String) (mcj : Record)
    (vs mw : Value) (k : String) (hk : k ∈ keysOf DEFAULT_CONFIGS) :
    getKey (initConfig mn qn mcj vs mw ct) k = some Value.null := by
  simp only [DEFAULT_CONFIGS, keysOf, List.map_cons, List.map_nil,
    List.mem_cons, List.not_mem_nil, or_false] at hk
  rcases hk with rfl | rfl | rfl | rfl | rfl | rfl | rfl | rfl | rfl <;> rfl

theorem gen_config_ok_elim {sch : Except String Record}
    {mn qn ct : String} {mcj : Record} {gc : Option Record}
    {p cok : String → Bool} {cv : ConvOutcome} {attrs : Record}
    {out : GenOut} (hs : sch = Except.ok attrs)
    (h : gen_config ⟨sch, mn, qn, ct, mcj, gc, p, cok, cv⟩ = .ok out) :
    (copyTokenizerFiles p cok TOKENIZER_FILES).2.2 = none ∧
    out.doc = cleanup (applyLayer (setField
        (mergedConfig attrs mn qn ct mcj gc) "tokenizer_files"
        (.list (((copyTokenizerFiles p cok TOKENIZER_FILES).1
          ++ (convertStep p cv).1).map .str))) DEFAULT_CONFIGS) ∧
    out.written = (copyTokenizerFiles p cok TOKENIZER_FILES).2.1
        ++ (convertStep p cv).2.1 ++ ["mlc-chat-config.json"] ∧
    out.warnings = (convertStep p cv).2.2 := by
  subst hs
  simp only [gen_config] at h
  rcases hc : (copyTokenizerFiles p cok TOKENIZER_FILES).2.2 with _ | f
  · rw [hc] at h
    cases h
    exact ⟨rfl, rfl, rfl, rfl⟩
  · rw [hc] at h
    cases h

theorem gen_config_ok_intro (attrs : Record) (mn qn ct : String)
    (mcj : Record) (gc : Option Record) (p cok : String → Bool)
    (cv : ConvOutcome)
    (hcopy : (copyTokenizerFiles p cok TOKENIZER_FILES).2.2 = none) :
    gen_config ⟨Except.ok attrs, mn, qn, ct, mcj, gc, p, cok, cv⟩
      = .ok ⟨cleanup (applyLayer (setField
          (mergedConfig attrs mn qn ct mcj gc) "tokenizer_files"
          (.list (((copyTokenizerFiles p cok TOKENIZER_FILES).1
            ++ (convertStep p cv).1).map .str))) DEFAULT_CONFIGS),
        (copyTokenizerFiles p cok TOKENIZER_FILES).2.1
          ++ (convertStep p cv).2.1 ++ ["mlc-chat-config.json"],
        (convertStep p cv).2.2⟩ := by
  simp only [gen_config]
  rw [hcopy]

theorem convertStep_appends_written (p : String → Bool)
    (cv : ConvOutcome) : (convertStep p cv).1 = (convertStep p cv).2.1 := by
  unfold convertStep
  by_cases hc : (p "tokenizer.model" && !p "tokenizer.json") = true <;>
    cases cv <;> simp [hc]

theorem getKey_doc_tokenizer_files (attrs : Record) (mn qn ct : String)
    (mcj : Record) (gc : Option Record) (L : List Value) :
    getKey (cleanup (applyLayer (setField (mergedConfig attrs mn qn ct mcj gc)
      "tokenizer_files" (Value.list L)) DEFAULT_CONFIGS)) "tokenizer_files"
      = some (Value.list L) := by
  rw [getKey_cleanup _
    (by rw [keysOf_applyLayer, keysOf_setField, keysOf_mergedConfig]
        exact nodup_MLC_FIELDS)
    (by decide)]
  rw [getKey_applyLayer_of_some DEFAULT_CONFIGS
    (getKey_setField_self (Value.list L)
      (by rw [keysOf_mergedConfig]; decide)) rfl]
  rfl

end Lemmas

/-- C1: in every serialized output record produced by `gen_config`, if
the resolved `sliding_window` field holds a value then `max_window_size`
is omitted from the output, regardless of its own value (in particular
regardless of an override-supplied value folded into the schema
attributes). -/
theorem sliding_window_excludes_max_window_size
    (sch : Except String Record) (mn qn ct : String) (mcj : Record)
    (gc : Option Record) (p cok : String → Bool) (cv : ConvOutcome)
    (attrs : Record) (out : GenOut) (v : Value)
    (hs : sch = Except.ok attrs)
    (h : gen_config ⟨sch, mn, qn, ct, mcj, gc, p, cok, cv⟩ = .ok out)
    (hv : getKey out.doc "sliding_window" = some v) :
    "max_window_size" ∉ keysOf out.doc := by
  obtain ⟨hcopy, hdoc, hwr, hwa⟩ := gen_config_ok_elim hs h
  rw [hdoc] at hv ⊢
  exact cleanup_mw_absent
    (by rw [keysOf_applyLayer, keysOf_setField, keysOf_mergedConfig]
        exact nodup_MLC_FIELDS) hv

/-- Witness for C1 at a concrete input whose schema attributes carry a
sliding window and a context window size. -/
theorem sliding_window_excludes_max_window_size_witness :
    gen_config c1Args = .ok c1Out ∧
    getKey c1Out.doc "sliding_window" = some (Value.int 4096) ∧
    "max_window_size" ∉ keysOf c1Out.doc :=
  ⟨rfl, rfl,
    sliding_window_excludes_max_window_size
      (Except.ok [("vocab_size", Value.int 32000),
        ("context_window_size", Value.int 2048),
        ("sliding_window", Value.int 4096)])
      "mistral" "q4f16_1" "mistral_default"
      [("vocab_size", Value.int 32000)] none
      (fun _ => false) (fun _ => true) ConvOutcome.ok
      [("vocab_size", Value.int 32000),
        ("context_window_size", Value.int 2048),
        ("sliding_window", Value.int 4096)]
      c1Out (Value.int 4096) rfl rfl rfl⟩

/-- C3: the layered merge is first-write-wins — once a field of the
target record holds a non-`None` value, applying any further layers
(`generation_config.json`, the system defaults, or any other) leaves
that value unchanged. -/
theorem merge_first_write_wins (layers : List Record) :
    ∀ (cfg : Record) (k : String) (v : Value),
      getKey cfg k = some v → v.isNull = false →
      getKey (layers.foldl applyLayer cfg) k = some v := by
  induction layers with
  | nil => intro cfg k v hv hn; exact hv
  | cons l rest ih =>
    intro cfg k v hv hn
    exact ih _ _ _ (getKey_applyLayer_of_some l hv hn) hn

/-- Witness for C3: the model-config layer sets `temperature=0.5`; the
lower-precedence generation-settings layer carries `temperature=0.9` and
the system defaults carry `temperature=0.7`, yet the merged value stays
`0.5`. -/
theorem merge_first_write_wins_witness :
    getKey c3Cfg "temperature" = some (Value.rat 0.5) ∧
    getKey ([[("temperature", Value.rat 0.9)], DEFAULT_CONFIGS].foldl
      applyLayer c3Cfg) "temperature" = some (Value.rat 0.5) :=
  ⟨rfl,
    merge_first_write_wins [[("temperature", Value.rat 0.9)],
      DEFAULT_CONFIGS] c3Cfg "temperature" (Value.rat 0.5) rfl rfl⟩

/-- C8: the cleanup (normalization) pass is a total function of the
merged record and is idempotent on every record whose keys are distinct,
as the keys of a record produced by `dataclasses.asdict` always are. -/
theorem cleanup_total_idempotent (d : Record)
    (hnd : (keysOf d).Nodup) : cleanup (cleanup d) = cleanup d :=
  cleanup_idem hnd

/-- Witness for C8 at a concrete merged record holding a sliding window,
a window size and a `None` field. -/
theorem cleanup_total_idempotent_witness :
    (keysOf [("sliding_window", Value.int 4096),
      ("max_window_size", Value.int 2048),
      ("temperature", Value.null)]).Nodup ∧
    cleanup (cleanup [("sliding_window", Value.int 4096),
      ("max_window_size", Value.int 2048),
      ("temperature", Value.null)])
      = cleanup [("sliding_window", Value.int 4096),
      ("max_window_size", Value.int 2048),
      ("temperature", Value.null)] :=
  ⟨by decide, cleanup_total_idempotent _ (by decide)⟩

/-- C9: when the schema layer cannot derive the vocabulary size or the
window size and no override supplies them, `gen_config` surfaces the
error to the caller and the written-file list is empty — no partial
output configuration document is produced. -/
theorem missing_schema_fields_fatal
    (canDeriveVocab canDeriveWindow : Bool) (attrs : Record)
    (mn qn ct : String) (mcj : Record) (gc : Option Record)
    (p cok : String → Bool) (cv : ConvOutcome)
    (h : canDeriveVocab = false ∨ canDeriveWindow = false) :
    gen_config ⟨resolveModelSchema canDeriveVocab canDeriveWindow attrs,
      mn, qn, ct, mcj, gc, p, cok, cv⟩
      = .error ("required schema fields missing", []) := by
  unfold resolveModelSchema
  rcases h with h | h <;> rw [h] <;> simp [gen_config]

/-- Witness for C9: a schema that cannot derive the vocabulary size. -/
theorem missing_schema_fields_fatal_witness :
    gen_config ⟨resolveModelSchema false true [("vocab_size", Value.null)],
      "llama", "q4f16_1", "llama-2", [], none, fun _ => true,
      fun _ => true, ConvOutcome.ok⟩
      = .error ("required schema fields missing", []) :=
  missing_schema_fields_fatal false true [("vocab_size", Value.null)]
    "llama" "q4f16_1" "llama-2" [] none (fun _ => true) (fun _ => true)
    ConvOutcome.ok (Or.inl rfl)

/-- C2: the cleanup pass scans all fields and removes every `None`-valued
one, so no field of the serialized output holds the sentinel; and when no
artifact is found the artifact list is serialized as an empty sequence,
not omitted. -/
theorem no_sentinel_in_output_and_empty_artifact_list :
    (∀ (a : GenArgs) (out : GenOut), gen_config a = .ok out →
      out.doc.all (fun kv => !kv.2.isNull) = true) ∧
    (∀ (sch : Except String Record) (mn qn ct : String) (mcj : Record)
      (gc : Option Record) (cok : String → Bool) (cv : ConvOutcome)
      (attrs : Record) (out : GenOut),
      sch = Except.ok attrs →
      gen_config ⟨sch, mn, qn, ct, mcj, gc, fun _ => false, cok, cv⟩
        = .ok out →
      getKey out.doc "tokenizer_files" = some (Value.list [])) := by
  constructor
  · intro a out h
    obtain ⟨sch, mn, qn, ct, mcj, gc, p, cok, cv⟩ := a
    rcases hsch : sch with e | attrs
    · rw [hsch] at h
      simp [gen_config] at h
    · obtain ⟨hcopy, hdoc, hwr, hwa⟩ := gen_config_ok_elim hsch h
      rw [hdoc]
      exact all_cleanup_nonnull _
  · intro sch mn qn ct mcj gc cok cv attrs out hs h
    obtain ⟨hcopy, hdoc, hwr, hwa⟩ := gen_config_ok_elim hs h
    rw [hdoc]
    exact getKey_doc_tokenizer_files attrs mn qn ct mcj gc []

/-- Witness for C2 at a concrete input with no artifacts found. -/
theorem no_sentinel_in_output_and_empty_artifact_list_witness :
    gen_config c2Args = .ok c2Out ∧
    c2Out.doc.all (fun kv => !kv.2.isNull) = true ∧
    getKey c2Out.doc "tokenizer_files" = some (Value.list []) :=
  ⟨rfl,
    no_sentinel_in_output_and_empty_artifact_list.1 c2Args c2Out rfl,
    no_sentinel_in_output_and_empty_artifact_list.2
      (Except.ok [("vocab_size", Value.int 1000),
        ("context_window_size", Value.int 512)])
      "llama" "q4f32_1" "llama_default" [] none (fun _ => true)
      ConvOutcome.ok
      [("vocab_size", Value.int 1000),
        ("context_window_size", Value.int 512)]
      c2Out rfl rfl⟩

/-- C4 counterexample: in the Step 3.1 loop the `append` to the artifact
list precedes the `shutil.copy` call, so with `tokenizer.json` present
the trace appends the name before its copy has succeeded — the claim
that a name is appended only after the copy fully succeeded is false of
the code. -/
theorem append_precedes_copy_counterexample :
    appendedOnlyAfterCopySucceeded
      (step3Events (fun f => f == "tokenizer.json") (fun _ => true)
        TOKENIZER_FILES) = false := rfl

/-- C4 amended: the copy loop appends a catalog name just before the
copy is attempted (not after), and a failed copy aborts the run before
the configuration document is written; consequently every filename in
the serialized artifact list of a completed run names a file that was
fully written, and no failed run writes the configuration document. -/
theorem serialized_artifact_list_sound :
    (∀ (sch : Except String Record) (mn qn ct : String) (mcj : Record)
      (gc : Option Record) (p cok : String → Bool) (cv : ConvOutcome)
      (attrs : Record) (out : GenOut) (L : List Value) (f : String),
      sch = Except.ok attrs →
      gen_config ⟨sch, mn, qn, ct, mcj, gc, p, cok, cv⟩ = .ok out →
      getKey out.doc "tokenizer_files" = some (Value.list L) →
      Value.str f ∈ L → f ∈ out.written) ∧
    (∀ (a : GenArgs) (e : String) (w : List String),
      gen_config a = .error (e, w) → "mlc-chat-config.json" ∉ w) := by
  constructor
  · intro sch mn qn ct mcj gc p cok cv attrs out L f hs h hL hf
    obtain ⟨hcopy, hdoc, hwr, hwa⟩ := gen_config_ok_elim hs h
    rw [hdoc, getKey_doc_tokenizer_files] at hL
    have hLe : L = ((copyTokenizerFiles p cok TOKENIZER_FILES).1
        ++ (convertStep p cv).1).map Value.str := by
      have := Option.some.inj hL
      injection this with hinj
      exact hinj.symm
    rw [hLe] at hf
    obtain ⟨x, hx, hxe⟩ := List.mem_map.mp hf
    injection hxe with hxe2
    rw [← hxe2]
    obtain ⟨h1, h2⟩ := copyTokenizerFiles_none_eq_filter hcopy
    rw [hwr]
    rcases List.mem_append.mp hx with hx | hx
    · rw [h1, ← h2] at hx
      exact List.mem_append_left _ (List.mem_append_left _ hx)
    · rw [convertStep_appends_written] at hx
      exact List.mem_append_left _ (List.mem_append_right _ hx)
  · intro a e w h
    obtain ⟨sch, mn, qn, ct, mcj, gc, p, cok, cv⟩ := a
    rcases hsch : sch with e0 | attrs
    · rw [hsch] at h
      simp only [gen_config] at h
      cases h
      exact List.not_mem_nil _
    · rw [hsch] at h
      simp only [gen_config] at h
      rcases hc : (copyTokenizerFiles p cok TOKENIZER_FILES).2.2 with _ | f0
      · rw [hc] at h
        cases h
      · rw [hc] at h
        cases h
        intro hmem
        have hsub := copyTokenizerFiles_sub p cok TOKENIZER_FILES hmem
        revert hsub
        decide

/-- Witness for the amended C4: a run whose only present artifact fails
to copy errors out without writing the configuration document. -/
theorem serialized_artifact_list_sound_witness :
    gen_config c4Args = .error ("copy failed: tokenizer.json", []) ∧
    "mlc-chat-config.json" ∉ ([] : List String) :=
  ⟨rfl, serialized_artifact_list_sound.2 c4Args
    "copy failed: tokenizer.json" [] rfl⟩

/-- C5: with `tokenizer.model` present and `tokenizer.json` absent, an
unavailable conversion capability (import failure) or any other
conversion failure degrades to a logged warning: `gen_config` completes,
produces the output document, and the artifact list contains
`tokenizer.model` but not `tokenizer.json`. -/
theorem conversion_failure_is_nonfatal
    (mn qn ct : String) (mcj : Record)
    (gc : Option Record) (p cok : String → Bool) (cv : ConvOutcome)
    (attrs : Record)
    (hok : ∀ f, cok f = true)
    (hp1 : p "tokenizer.model" = true)
    (hp2 : p "tokenizer.json" = false)
    (hcv : cv ≠ ConvOutcome.ok) :
    (∃ out, gen_config ⟨Except.ok attrs, mn, qn, ct, mcj, gc, p, cok, cv⟩
      = .ok out) ∧
    Value.str "tokenizer.model" ∈ (TOKENIZER_FILES.filter p).map Value.str ∧
    Value.str "tokenizer.json" ∉ (TOKENIZER_FILES.filter p).map Value.str ∧
    (∀ out, gen_config ⟨Except.ok attrs, mn, qn, ct, mcj, gc, p, cok, cv⟩
        = .ok out →
      out.warnings ≠ [] ∧
      getKey out.doc "tokenizer_files"
        = some (Value.list ((TOKENIZER_FILES.filter p).map Value.str))) := by
  have hr : copyTokenizerFiles p cok TOKENIZER_FILES
      = (TOKENIZER_FILES.filter p, TOKENIZER_FILES.filter p, none) :=
    copyTokenizerFiles_all_ok p TOKENIZER_FILES cok hok
  have hcond : (p "tokenizer.model" && !p "tokenizer.json") = true := by
    rw [hp1, hp2]; rfl
  have hconv : ∃ msg, convertStep p cv = ([], [], [msg]) := by
    unfold convertStep
    rw [hcond]
    cases cv with
    | ok => exact absurd rfl hcv
    | importError => exact ⟨"unable to import transformers, skipping", rfl⟩
    | convError => exact ⟨"skipping conversion due to an error", rfl⟩
  obtain ⟨msg, hconv⟩ := hconv
  refine ⟨⟨_, gen_config_ok_intro attrs mn qn ct mcj gc p cok cv
      (by rw [hr])⟩, ?_, ?_, ?_⟩
  · exact List.mem_map_of_mem Value.str
      (List.mem_filter.mpr ⟨by decide, hp1⟩)
  · intro hmem
    obtain ⟨x, hx, hxe⟩ := List.mem_map.mp hmem
    injection hxe with hxe2
    rw [hxe2] at hx
    exact absurd (List.mem_filter.mp hx).2 (by rw [hp2]; decide)
  · intro out hout
    obtain ⟨hcopy, hdoc, hwr, hwa⟩ := gen_config_ok_elim rfl hout
    constructor
    · rw [hwa, hconv]
      simp
    · rw [hdoc]
      simp only [hr, hconv, List.append_nil]
      exact getKey_doc_tokenizer_files attrs mn qn ct mcj gc _

/-- Witness for C5: the conversion capability is not installed, yet the
run completes with a warning and only `tokenizer.model` listed. -/
theorem conversion_failure_is_nonfatal_witness :
    gen_config c5Args = .ok c5Out ∧
    c5Out.warnings ≠ [] ∧
    getKey c5Out.doc "tokenizer_files"
      = some (Value.list [Value.str "tokenizer.model"]) :=
  ⟨rfl,
    ((conversion_failure_is_nonfatal "llama" "q4f16_1" "llama-2" []
      none (fun f => f == "tokenizer.model") (fun _ => true)
      ConvOutcome.importError
      [("vocab_size", Value.int 32000),
        ("context_window_size", Value.int 2048)]
      (fun _ => rfl) rfl rfl
      (fun h => ConvOutcome.noConfusion h)).2.2.2 c5Out rfl).1,
    ((conversion_failure_is_nonfatal "llama" "q4f16_1" "llama-2" []
      none (fun f => f == "tokenizer.model") (fun _ => true)
      ConvOutcome.importError
      [("vocab_size", Value.int 32000),
        ("context_window_size", Value.int 2048)]
      (fun _ => rfl) rfl rfl
      (fun h => ConvOutcome.noConfusion h)).2.2.2 c5Out rfl).2⟩

/-- C6: the resolved artifact list preserves the fixed catalog order of
`TOKENIZER_FILES` — each present catalog entry is appended in catalog
order and absent entries contribute nothing; in particular a source
directory holding exactly `tokenizer.json` and `vocab.json` yields the
list `["tokenizer.json", "vocab.json"]`. -/
theorem artifact_catalog_order :
    (∀ (sch : Except String Record) (mn qn ct : String) (mcj : Record)
      (gc : Option Record) (p cok : String → Bool) (cv : ConvOutcome)
      (attrs : Record) (out : GenOut),
      sch = Except.ok attrs →
      p "tokenizer.model" = false →
      gen_config ⟨sch, mn, qn, ct, mcj, gc, p, cok, cv⟩ = .ok out →
      getKey out.doc "tokenizer_files"
        = some (Value.list ((TOKENIZER_FILES.filter p).map Value.str))) ∧
    (∀ (sch : Except String Record) (mn qn ct : String) (mcj : Record)
      (gc : Option Record) (cok : String → Bool) (cv : ConvOutcome)
      (attrs : Record) (out : GenOut),
      sch = Except.ok attrs →
      gen_config ⟨sch, mn, qn, ct, mcj, gc,
        (fun f => f == "tokenizer.json" || f == "vocab.json"), cok, cv⟩
        = .ok out →
      getKey out.doc "tokenizer_files"
        = some (Value.list [Value.str "tokenizer.json",
            Value.str "vocab.json"])) := by
  have main : ∀ (sch : Except String Record) (mn qn ct : String)
      (mcj : Record) (gc : Option Record) (p cok : String → Bool)
      (cv : ConvOutcome) (attrs : Record) (out : GenOut),
      sch = Except.ok attrs →
      p "tokenizer.model" = false →
      gen_config ⟨sch, mn, qn, ct, mcj, gc, p, cok, cv⟩ = .ok out →
      getKey out.doc "tokenizer_files"
        = some (Value.list ((TOKENIZER_FILES.filter p).map Value.str)) := by
    intro sch mn qn ct mcj gc p cok cv attrs out hs hpm h
    obtain ⟨hcopy, hdoc, hwr, hwa⟩ := gen_config_ok_elim hs h
    have hconv : convertStep p cv = ([], [], []) := by
      unfold convertStep
      rw [hpm]
      simp
    obtain ⟨h1, h2⟩ := copyTokenizerFiles_none_eq_filter hcopy
    rw [hdoc, h1, hconv]
    simp only [List.append_nil]
    exact getKey_doc_tokenizer_files attrs mn qn ct mcj gc _
  refine ⟨main, ?_⟩
  intro sch mn qn ct mcj gc cok cv attrs out hs h
  have := main sch mn qn ct mcj gc
    (fun f => f == "tokenizer.json" || f == "vocab.json") cok cv attrs out
    hs rfl h
  have he : ((TOKENIZER_FILES.filter
      (fun f => f == "tokenizer.json" || f == "vocab.json")).map Value.str)
      = [Value.str "tokenizer.json", Value.str "vocab.json"] := rfl
  rw [he] at this
  exact this

/-- Witness for C6 at a source directory holding `tokenizer.json` and
`vocab.json` but not `tokenizer.model`. -/
theorem artifact_catalog_order_witness :
    gen_config c6Args = .ok c6Out ∧
    getKey c6Out.doc "tokenizer_files"
      = some (Value.list [Value.str "tokenizer.json",
          Value.str "vocab.json"]) :=
  ⟨rfl,
    artifact_catalog_order.2
      (Except.ok [("vocab_size", Value.int 50257),
        ("context_window_size", Value.int 1024)])
      "gpt2" "q0f32" "gpt2" [] none (fun _ => true) ConvOutcome.ok
      [("vocab_size", Value.int 50257),
        ("context_window_size", Value.int 1024)]
      c6Out rfl rfl⟩

/-- C7: when neither the schema attribute layer nor the generation
settings layer supplies any of the nine defaulted generation and
token-id parameters, the system-default layer sets exactly the values of
`DEFAULT_CONFIGS` and each appears in the output document. -/
theorem system_defaults_applied
    (sch : Except String Record) (mn qn ct : String) (mcj : Record)
    (gc : Option Record) (p cok : String → Bool) (cv : ConvOutcome)
    (attrs : Record) (out : GenOut)
    (hs : sch = Except.ok attrs)
    (hattrs : ∀ kv ∈ attrs, kv.1 ∈ keysOf DEFAULT_CONFIGS →
      kv.2 = Value.null)
    (hgen : ∀ g, gc = some g → ∀ kv ∈ g,
      kv.1 ∈ keysOf DEFAULT_CONFIGS → kv.2 = Value.null)
    (h : gen_config ⟨sch, mn, qn, ct, mcj, gc, p, cok, cv⟩ = .ok out) :
    ∀ kv ∈ DEFAULT_CONFIGS, getKey out.doc kv.1 = some kv.2 := by
  obtain ⟨hcopy, hdoc, hwr, hwa⟩ := gen_config_ok_elim hs h
  have main : ∀ (k : String) (v : Value),
      k ∈ keysOf DEFAULT_CONFIGS →
      k ≠ "tokenizer_files" → k ≠ "max_window_size" →
      firstSet DEFAULT_CONFIGS k = some v → v.isNull = false →
      getKey out.doc k = some v := by
    intro k v hkmem hk1 hk2 hfs hvn
    have h0 : getKey (initConfig mn qn mcj (attrOf attrs "vocab_size")
        (attrOf attrs "context_window_size") ct) k = some Value.null :=
      getKey_init_default_null _ _ _ _ _ _ _ hkmem
    have h1 : getKey (applyLayer (initConfig mn qn mcj
        (attrOf attrs "vocab_size") (attrOf attrs "context_window_size")
        ct) attrs) k = some Value.null := by
      rw [getKey_applyLayer_of_null _ h0, firstSet_eq_none
        (fun kv hm he => hattrs kv hm (by rw [he]; exact hkmem))]
      rfl
    have h2 : getKey (mergedConfig attrs mn qn ct mcj gc) k
        = some Value.null := by
      unfold mergedConfig
      cases hg : gc with
      | none => exact h1
      | some g =>
        rw [getKey_applyLayer_of_null _ h1, firstSet_eq_none
          (fun kv hm he => hgen g hg kv hm (by rw [he]; exact hkmem))]
        rfl
    have h3 : getKey (setField (mergedConfig attrs mn qn ct mcj gc)
        "tokenizer_files"
        (.list (((copyTokenizerFiles p cok TOKENIZER_FILES).1
          ++ (convertStep p cv).1).map .str))) k = some Value.null := by
      rw [getKey_setField_of_ne _ _ hk1]
      exact h2
    have h4 : getKey (applyLayer (setField
        (mergedConfig attrs mn qn ct mcj gc) "tokenizer_files"
        (.list (((copyTokenizerFiles p cok TOKENIZER_FILES).1
          ++ (convertStep p cv).1).map .str))) DEFAULT_CONFIGS) k
        = some v := by
      rw [getKey_applyLayer_of_null _ h3, hfs]
      rfl
    rw [hdoc, getKey_cleanup _
      (by rw [keysOf_applyLayer, keysOf_setField, keysOf_mergedConfig]
          exact nodup_MLC_FIELDS) hk2, h4]
    simp [denull, hvn]
  intro kv hkv
  simp only [DEFAULT_CONFIGS, List.mem_cons, List.not_mem_nil,
    or_false] at hkv
  rcases hkv with rfl | rfl | rfl | rfl | rfl | rfl | rfl | rfl | rfl <;>
    exact main _ _ (by decide) (by decide) (by decide) rfl rfl

/-- Witness for C7 at a concrete input with no generation parameters in
any layer: temperature, top-p and pad token id come out as the system
defaults. -/
theorem system_defaults_applied_witness :
    gen_config c7Args = .ok c7Out ∧
    getKey c7Out.doc "temperature" = some (Value.rat 0.7) ∧
    getKey c7Out.doc "top_p" = some (Value.rat 0.95) ∧
    getKey c7Out.doc "pad_token_id" = some (Value.int 0) :=
  ⟨rfl,
    system_defaults_applied
      (Except.ok [("vocab_size", Value.int 32000),
        ("context_window_size", Value.int 2048),
        ("temperature", Value.null)])
      "llama" "q4f16_1" "llama-2" [] none (fun _ => false)
      (fun _ => true) ConvOutcome.ok
      [("vocab_size", Value.int 32000),
        ("context_window_size", Value.int 2048),
        ("temperature", Value.null)]
      c7Out rfl
      (by intro kv hkv hmem
          simp only [List.mem_cons, List.not_mem_nil, or_false] at hkv
          rcases hkv with rfl | rfl | rfl
          · exact absurd hmem (by decide)
          · exact absurd hmem (by decide)
          · rfl)
      (fun g hg => Option.noConfusion hg) rfl
      ("temperature", Value.rat 0.7) (by simp [DEFAULT_CONFIGS]),
    system_defaults_applied
      (Except.ok [("vocab_size", Value.int 32000),
        ("context_window_size", Value.int 2048),
        ("temperature", Value.null)])
      "llama" "q4f16_1" "llama-2" [] none (fun _ => false)
      (fun _ => true) ConvOutcome.ok
      [("vocab_size", Value.int 32000),
        ("context_window_size", Value.int 2048),
        ("temperature", Value.null)]
      c7Out rfl
      (by intro kv hkv hmem
          simp only [List.mem_cons, List.not_mem_nil, or_false] at hkv
          rcases hkv with rfl | rfl | rfl
          · exact absurd hmem (by decide)
          · exact absurd hmem (by decide)
          · rfl)
      (fun g hg => Option.noConfusion hg) rfl
      ("top_p", Value.rat 0.95) (by simp [DEFAULT_CONFIGS]),
    system_defaults_applied
      (Except.ok [("vocab_size", Value.int 32000),
        ("context_window_size", Value.int 2048),
        ("temperature", Value.null)])
      "llama" "q4f16_1" "llama-2" [] none (fun _ => false)
      (fun _ => true) ConvOutcome.ok
      [("vocab_size", Value.int 32000),
        ("context_window_size", Value.int 2048),
        ("temperature", Value.null)]
      c7Out rfl
      (by intro kv hkv hmem
          simp only [List.mem_cons, List.not_mem_nil, or_false] at hkv
          rcases hkv with rfl | rfl | rfl
          · exact absurd hmem (by decide)
          · exact absurd hmem (by decide)
          · rfl)
      (fun g hg => Option.noConfusion hg) rfl
      ("pad_token_id", Value.int 0) (by simp [DEFAULT_CONFIGS])⟩

/-- C10: every successful `gen_config` run emits the schema version
field with the constant value `"0.1.0"`: the seed record initializes it,
no layer overwrites it, and the cleanup never removes it. -/
theorem version_field_always_emitted
    (sch : Except String Record) (mn qn ct : String) (mcj : Record)
    (gc : Option Record) (p cok : String → Bool) (cv : ConvOutcome)
    (attrs : Record) (out : GenOut)
    (hs : sch = Except.ok attrs)
    (h : gen_config ⟨sch, mn, qn, ct, mcj, gc, p, cok, cv⟩ = .ok out) :
    getKey out.doc "version" = some (Value.str VERSION) := by
  obtain ⟨hcopy, hdoc, hwr, hwa⟩ := gen_config_ok_elim hs h
  rw [hdoc]
  have h0 : getKey (initConfig mn qn mcj (attrOf attrs "vocab_size")
      (attrOf attrs "context_window_size") ct) "version"
      = some (Value.str VERSION) := rfl
  have h1 : getKey (mergedConfig attrs mn qn ct mcj gc) "version"
      = some (Value.str VERSION) := by
    unfold mergedConfig
    cases gc with
    | none => exact getKey_applyLayer_of_some _ h0 rfl
    | some g =>
      exact getKey_applyLayer_of_some _
        (getKey_applyLayer_of_some _ h0 rfl) rfl
  have h3 : getKey (setField (mergedConfig attrs mn qn ct mcj gc)
      "tokenizer_files"
      (.list (((copyTokenizerFiles p cok TOKENIZER_FILES).1
        ++ (convertStep p cv).1).map .str)) ) "version"
      = some (Value.str VERSION) := by
    rw [getKey_setField_of_ne _ _ (by decide)]
    exact h1
  have h4 := getKey_applyLayer_of_some DEFAULT_CONFIGS h3 rfl
  rw [getKey_cleanup _
    (by rw [keysOf_applyLayer, keysOf_setField, keysOf_mergedConfig]
        exact nodup_MLC_FIELDS)
    (by decide), h4]
  rfl

/-- Witness for C10 at a concrete input. -/
theorem version_field_always_emitted_witness :
    gen_config c10Args = .ok c10Out ∧
    getKey c10Out.doc "version" = some (Value.str VERSION) :=
  ⟨rfl,
    version_field_always_emitted
      (Except.ok [("vocab_size", Value.int 50257),
        ("context_window_size", Value.int 1024)])
      "gpt2" "q0f16" "gpt2" [("vocab_size", Value.int 50257)] none
      (fun _ => false) (fun _ => true) ConvOutcome.ok
      [("vocab_size", Value.int 50257),
        ("context_window_size", Value.int 1024)]
      c10Out rfl rfl⟩

end MLC
